import Mathlib

/-!
Verification development for the problem-generation pipeline
(`run/pg_helpers.py` and `run/main_ProblemGeneratorV6.py`).

The Python code is shallowly embedded: dynamically typed Python values that
can appear in candidate variable maps or be returned by generated `solve`
code are modelled by the inductive `PyVal`; Python `float` coercion results
(including infinities and NaN) by `PFloat`; dictionaries by association
lists in insertion order (Python dicts preserve insertion order).  Numeric
literals are modelled by rationals; the decimal rendering of numbers in
messages is abstracted by `toString` on rationals (never equal to "nan",
matching Python's rendering of finite numbers).
-/

namespace PGen

/-! ### Character-level string primitives

The strings this pipeline manipulates (formula ids, variable names, error
messages, sentinel values) are ASCII, so Python's string operations are
embedded as executable functions on the underlying character lists. -/

/-- Python `s.lower()` (ASCII case folding, which covers every string this
pipeline produces). -/
def lowerStr (s : String) : String :=
  String.mk (s.data.map Char.toLower)

/-- Python `str.strip` whitespace class: space, tab, LF, VT, FF, CR. -/
def isPySpace (c : Char) : Bool :=
  c.toNat = 32 || c.toNat = 9 || c.toNat = 10 || c.toNat = 11 || c.toNat = 12 || c.toNat = 13

/-- Python `s.strip()`. -/
def trimStr (s : String) : String :=
  String.mk (((s.data.dropWhile isPySpace).reverse.dropWhile isPySpace).reverse)

/-- Tests whether `needle` begins `hay`. -/
def isPrefixL : List Char → List Char → Bool
  | [], _ => true
  | _ :: _, [] => false
  | a :: as, b :: bs => decide (a = b) && isPrefixL as bs

/-- Tests whether `needle` occurs contiguously in `hay`: Python's `needle in hay`. -/
def subList (needle : List Char) : List Char → Bool
  | [] => isPrefixL needle []
  | c :: t => isPrefixL needle (c :: t) || subList needle t

/-- Python substring test `needle in hay`. -/
def strContains (hay needle : String) : Bool :=
  subList needle.data hay.data

/-- Python `s.split(".")` on a character list. -/
def splitOnDot : List Char → List (List Char)
  | [] => [[]]
  | c :: t =>
    let r := splitOnDot t
    if decide (c = '.') then [] :: r
    else
      match r with
      | h :: rest => (c :: h) :: rest
      | [] => [[c]]

/-- Lexicographic comparison of strings by Unicode code point, exactly the
order Python's `sorted` uses on `str`. -/
def lexLe : List Char → List Char → Bool
  | [], _ => true
  | _ :: _, [] => false
  | a :: as, b :: bs =>
    if a.toNat < b.toNat then true
    else if b.toNat < a.toNat then false
    else lexLe as bs

/-- String comparison used by Python `sorted` on formula ids. -/
def strLe (a b : String) : Bool :=
  lexLe a.data b.data

/-- Python `sorted` on a list of strings. -/
def sortStrings (l : List String) : List String :=
  List.insertionSort (fun a b => strLe a b = true) l

/-- A dynamically typed Python value, restricted to the shapes that occur in
the pipeline's variable maps and `solve()` return values: finite numbers
(int/float conflated, modelled by a rational), float NaN, ±infinity,
booleans, strings, and `None`. -/
inductive PyVal where
  | num (q : ℚ)
  | nanV
  | infV
  | ninfV
  | boolV (b : Bool)
  | strV (s : String)
  | noneV
deriving DecidableEq, Repr

/-- Python `str(v)` for a `PyVal`.  For finite numbers the exact decimal
rendering is abstracted by `toString` on the rational; the only property the
code relies on is that it is never the string "nan" (true of Python's
rendering of every finite int/float, and of `toString` on rationals). -/
def pyStr : PyVal → String
  | .num q => toString q
  | .nanV => "nan"
  | .infV => "inf"
  | .ninfV => "-inf"
  | .boolV b => if b then "True" else "False"
  | .strV s => s
  | .noneV => "None"

/-- Sentinel test `str(v).lower() == 'nan'` used throughout
`pg_helpers.py` (lines 103, 167, 174, 217) to classify a variable as the
unknown. -/
def isNanSentinel (v : PyVal) : Bool :=
  lowerStr (pyStr v) == "nan"

/-- The result of Python `float(...)`: a finite rational, +inf, -inf, or NaN. -/
inductive PFloat where
  | fin (q : ℚ)
  | pinf
  | ninf
  | nanF
deriving DecidableEq, Repr

/-- Python `<=` on floats; any comparison involving NaN is false. -/
def pLe : PFloat → PFloat → Bool
  | .nanF, _ => false
  | _, .nanF => false
  | .ninf, _ => true
  | .fin _, .pinf => true
  | .fin a, .fin b => decide (a ≤ b)
  | .fin _, .ninf => false
  | .pinf, .pinf => true
  | .pinf, _ => false

/-- Digits-only string fragment to a natural number; `Option.none` when empty
or containing a non-digit. -/
def digitsToNat : List Char → Option ℕ
  | [] => Option.none
  | cs =>
    if cs.all (·.isDigit) then
      some (cs.foldl (fun a c => a * 10 + (c.toNat - 48)) 0)
    else
      Option.none

/-- Unsigned decimal literal (digits, optionally with one decimal point) to a
rational.  A subset of Python's float syntax sufficient for this
development; exponents and underscores are not modelled, so strings using
them fall into the unparseable case. -/
def parseUnsigned (t : List Char) : Option ℚ :=
  match splitOnDot t with
  | [a] => (digitsToNat a).map (fun n => (n : ℚ))
  | [a, b] =>
    if a.isEmpty && b.isEmpty then
      Option.none
    else if b.isEmpty then
      (digitsToNat a).map (fun n => (n : ℚ))
    else
      let ip : Option ℕ := if a.isEmpty then some 0 else digitsToNat a
      match ip, digitsToNat b with
      | some n, some f => some ((n : ℚ) + (f : ℚ) / ((10 : ℚ) ^ b.length))
      | _, _ => Option.none
  | _ => Option.none

/-- Python `float(s)` on a string: strips whitespace, accepts an optional
sign, then "nan", "inf"/"infinity", or a decimal literal; anything else
raises `ValueError`, modelled by `Option.none`. -/
def parsePyFloat (s : String) : Option PFloat :=
  let t := (lowerStr (trimStr s)).data
  let neg := isPrefixL ['-'] t
  let u := if isPrefixL ['-'] t || isPrefixL ['+'] t then t.drop 1 else t
  if decide (u = "nan".data) then some .nanF
  else if decide (u = "inf".data) || decide (u = "infinity".data) then
    some (if neg then .ninf else .pinf)
  else
    (parseUnsigned u).map (fun q => .fin (if neg then -q else q))

/-- Python `float(v)` on a `PyVal`; `Option.none` models the
`ValueError`/`TypeError` caught at `pg_helpers.py` line 181. -/
def pyFloat : PyVal → Option PFloat
  | .num q => some (.fin q)
  | .nanV => some .nanF
  | .infV => some .pinf
  | .ninfV => some .ninf
  | .boolV b => some (.fin (if b then 1 else 0))
  | .strV s => parsePyFloat s
  | .noneV => Option.none

/-- One entry of a candidate's variable map: the dict
`{"value": ..., "unit": ...}` (VariableSpec).  Only `value` is ever read by
the validator and executor. -/
structure VarData where
  value : PyVal
  unit : String
deriving DecidableEq, Repr

/-- A parsed Call2 output (CandidateProblem): `word_problem`, `formula_ids`
and the ordered variable map. -/
structure Candidate where
  word_problem : String
  formula_ids : List String
  vars : List (String × VarData)
deriving DecidableEq, Repr

/-- An entry of `previous_problems` (RecentHistoryWindow): only `signature`
and `snippet` are consulted by the pipeline; `created_at` carries no logic
and is dropped. -/
structure PrevProblem where
  signature : Option String
  snippet : String
deriving DecidableEq, Repr

/-- Result dict of `validate_problem`. -/
structure ValidationResult where
  valid : Bool
  error : Option String
  unknown_var : Option String
deriving DecidableEq, Repr

/-- Embedding of `compute_problem_signature` (pg_helpers.py lines 90-107): sort the
stringified formula ids, join with commas, and append the name of the first
variable whose value passes the "nan" sentinel test (Python's `f"...{None}"`
renders the no-unknown case as "None"). -/
def compute_problem_signature (c : Candidate) : String :=
  let sorted_fids := sortStrings c.formula_ids
  let unknown := (c.vars.find? (fun kv => isNanSentinel kv.2.value)).map (fun kv => kv.1)
  "fids=[" ++ String.intercalate "," sorted_fids ++ "]|unknown=" ++
    (match unknown with
     | some k => k
     | Option.none => "None")

/-- The per-variable body of the range-check loop
(pg_helpers.py lines 173-184).  A range declaration is
`Option (List ℚ)`: `Option.none` covers both a missing/non-dict entry and a
missing "range" key; a list of length ≠ 2 (or the empty, hence falsy, list)
is skipped just as in the source.  Returns the error message produced by
this variable, if any. -/
def varRangeError (variable_ranges : List (String × Option (List ℚ))) (kv : String × VarData) : Option String :=
  if isNanSentinel kv.2.value then Option.none
  else
    match (variable_ranges.find? (fun e => e.1 == kv.1)).map (fun e => e.2) with
    | some (some [range_min, range_max]) =>
      (match pyFloat kv.2.value with
       | Option.none =>
         some ("Variable '" ++ kv.1 ++ "' has an invalid numerical value: '" ++ pyStr kv.2.value ++ "'.")
       | some actual =>
         if !(pLe (.fin range_min) actual && pLe actual (.fin range_max)) then
           some (kv.1 ++ " with value " ++ pFloatStr actual ++ " is out of expected range [" ++ toString range_min ++ ", " ++ toString range_max ++ "].")
         else
           Option.none)
    | _ => Option.none
where
  /-- rendering of the coerced float in the out-of-range message -/
  pFloatStr : PFloat → String
    | .fin q => toString q
    | .pinf => "inf"
    | .ninf => "-inf"
    | .nanF => "nan"

/-- Line 167 (and line 217): the names of the variables whose value is the
"nan" sentinel, in map order. -/
def nanVars (vars : List (String × VarData)) : List String :=
  (vars.filter (fun kv => isNanSentinel kv.2.value)).map (fun kv => kv.1)

/-- Embedding of `validate_problem` (pg_helpers.py lines 146-194), with `formula_dict`
already normalised to the set of known formula ids (as the orchestrator
passes it, line 223 of main).  Checks in source order: formula-id
membership, exactly-one-"nan"-sentinel, per-variable range conformance
(first offending variable wins, as in the source loop), and duplicate
signature against `previous_problems`. -/
def validate_problem (output : Candidate) (formula_id_set : List String)
    (variable_ranges : List (String × Option (List ℚ)))
    (previous_problems : List PrevProblem) : ValidationResult :=
  if !(output.formula_ids.all (fun fid => formula_id_set.contains fid)) then
    ⟨false, some "Invalid formula_id", Option.none⟩
  else
    let nan_vars := nanVars output.vars
    if nan_vars.length ≠ 1 then
      ⟨false, some ("Must have exactly 1 unknown, found " ++ toString nan_vars.length), Option.none⟩
    else
      match output.vars.findSome? (varRangeError variable_ranges) with
      | some msg => ⟨false, some msg, Option.none⟩
      | Option.none =>
        let current_signature := compute_problem_signature output
        if previous_problems.any (fun p => p.signature == some current_signature) then
          ⟨false, some "Duplicate problem signature", Option.none⟩
        else
          ⟨true, Option.none, nan_vars.head?⟩

/-- The observable behaviour of `exec`-ing a generated code string and
looking up `solve` (pg_helpers.py lines 203-210): the module-level code may
raise, the namespace may lack a callable `solve` (regardless of what other
callables it defines), `solve()` may raise, or it returns a value. -/
inductive ExecBehavior where
  | execError (msg : String)
  | noSolve
  | solveError (msg : String)
  | returns (v : PyVal)
deriving DecidableEq, Repr

/-- Result dict of `execute_and_validate_in_repl`. -/
structure ExecResult where
  valid : Bool
  error : Option String
  result : Option PyVal
deriving DecidableEq, Repr

/-- Python `isinstance(result, (int, float))`: Python `bool` is a subclass of
`int`, and NaN/inf are floats. -/
def pyIsNumber : PyVal → Bool
  | .num _ => true
  | .nanV => true
  | .infV => true
  | .ninfV => true
  | .boolV _ => true
  | .strV _ => false
  | .noneV => false

/-- Python `math.isnan(result) or math.isinf(result)` on an (already
number-checked) value. -/
def pyNonFinite : PyVal → Bool
  | .nanV => true
  | .infV => true
  | .ninfV => true
  | _ => false

/-- Python `result < 0` on a number-checked value (booleans compare as 0/1). -/
def pyNeg : PyVal → Bool
  | .num q => decide (q < 0)
  | .ninfV => true
  | _ => false

/-- The fixed token set of the sign-sanity heuristic
(pg_helpers.py line 220). -/
def negTokens : List String :=
  ["mass", "distance", "time", "speed", "velocity", "energy"]

/-- Embedding of `execute_and_validate_in_repl` (pg_helpers.py lines 197-223), with the
`exec`/`solve` dynamics abstracted into an `ExecBehavior`.  Both a raise
during `exec` and a raise inside `solve()` land in the same
`except` clause producing "Execution failed: ...". -/
def execute_and_validate_in_repl (beh : ExecBehavior) (vars : List (String × VarData)) : ExecResult :=
  match beh with
  | .execError m => ⟨false, some ("Execution failed: " ++ m), Option.none⟩
  | .noSolve => ⟨false, some "'solve()' function not found", Option.none⟩
  | .solveError m => ⟨false, some ("Execution failed: " ++ m), Option.none⟩
  | .returns v =>
    if v = .noneV || !(pyIsNumber v) then
      ⟨false, some "Invalid return type", Option.none⟩
    else if pyNonFinite v then
      ⟨false, some "Result is NaN or Inf", Option.none⟩
    else
      match nanVars vars with
      | [] => ⟨true, Option.none, some v⟩
      | unknown_var :: _ =>
        if pyNeg v && negTokens.any (fun x => strContains (lowerStr unknown_var) x) then
          ⟨false, some ("Negative value for " ++ unknown_var), some v⟩
        else
          ⟨true, Option.none, some v⟩

/-! ### Orchestrator: durable store and merge
(`main_ProblemGeneratorV6.py`) -/

/-- A persisted SuccessRecord, reduced to the fields the merge logic reads
(`signature`) plus an opaque payload standing for all the other fields. -/
structure SRecord where
  signature : String
  payload : String
deriving DecidableEq, Repr

/-- The signature set built at main lines 60: the (truthy, i.e. nonempty)
signatures of the already-loaded records.  Python uses a set; only
membership is ever consulted, so a list models it. -/
def initialSignatures (records : List SRecord) : List String :=
  (records.map (fun r => r.signature)).filter (fun s => s ≠ "")

/-- One step of the per-row merge (main lines 344-348): append `rec` iff its
signature is truthy (nonempty) and not already present. -/
def mergeStep (acc : List SRecord × List String) (rec : SRecord) : List SRecord × List String :=
  if rec.signature ≠ "" ∧ rec.signature ∉ acc.2 then
    (acc.1 ++ [rec], acc.2 ++ [rec.signature])
  else
    acc

/-- The merge of a row's successful records into the durable store
(main lines 343-349): fold `mergeStep` over the new records. -/
def mergeRecords (existing_records : List SRecord) (existing_signatures : List String)
    (new_records : List SRecord) : List SRecord × List String :=
  new_records.foldl mergeStep (existing_records, existing_signatures)

/-- The on-disk durable store as the loader sees it: what the file held when
it was last written, and whether reading it back yields a JSON list
(`readable = false` covers both an unparseable/unreadable file and a file
whose JSON is not a list). -/
structure StoreFile where
  records : List SRecord
  readable : Bool
deriving DecidableEq, Repr

/-- The store load at main lines 46-58: a readable JSON list is adopted;
otherwise a warning is printed and the run proceeds with an empty record
list (the file will be overwritten by the next incremental write). -/
def loadExistingRecords (f : StoreFile) : List SRecord :=
  if f.readable then f.records else []

/-- The store content after one row's merge followed by
`atomic_write_json` (main lines 343-349): the file is replaced by the merged
in-memory list. -/
def storeAfterMergeWrite (f : StoreFile) (new_records : List SRecord) : List SRecord :=
  (mergeRecords (loadExistingRecords f)
    (initialSignatures (loadExistingRecords f)) new_records).1

/-! ### Orchestrator: one generation cycle
(main lines 172-336)

The external model is a black box: each call either raises (transport
error) or returns text.  Call2/Call2a text either parses to a `Candidate` or
fails to parse; Call3/Call3a text is code whose observable `exec`/`solve`
dynamics are an `ExecBehavior`. -/

/-- Outcome of one `llm.generate_content` for Call2 or Call2a. -/
inductive GenResult where
  | raised (msg : String)
  | text (parsed : Option Candidate)
deriving Repr

/-- Outcome of one `llm.generate_content` for Call3 or Call3a. -/
inductive CodeResult where
  | raised (msg : String)
  | code (beh : ExecBehavior)
deriving Repr

/-- The model's responses for one cycle: the first Call2, the Call2a
corrective retry as a function of the injected `error_message`, the first
Call3, and the Call3a corrective retry as a function of the injected
`error_message`. -/
structure CycleEnv where
  gen : GenResult
  genRetry : String → GenResult
  codeGen : CodeResult
  codeRetry : String → CodeResult

/-- Instrumentation: the model invocations a cycle performs, labelled by the
source site (Call2; Call2a after a parse failure; Call2a after a validation
failure; Call3; Call3a after an execution failure). -/
inductive StageEvent where
  | genCall
  | genParseRetry (feedback : String)
  | genValidationRetry (feedback : String)
  | codeGenCall
  | codeExecRetry (feedback : String)
deriving DecidableEq, Repr

/-- The record built at main lines 315-328, reduced to the fields later
logic reads. -/
structure SuccessRec where
  signature : String
  word_problem : String
  unknown_var : Option String
  result : Option PyVal
deriving DecidableEq, Repr

/-- Result of one cycle: the appended record, if any, and the labelled model
invocations. -/
structure CycleOutcome where
  record : Option SuccessRec
  events : List StageEvent
deriving Repr

/-- Call2 with its single parse-failure retry (main lines 183-218): a raised
first call skips the cycle; a parse failure re-invokes generation once with
the fixed parse-failure hint; a raised or unparseable retry skips the
cycle. -/
def stageGenerate (env : CycleEnv) : Option Candidate × List StageEvent :=
  match env.gen with
  | .raised _ => (Option.none, [.genCall])
  | .text (some c) => (some c, [.genCall])
  | .text Option.none =>
    let fb := "Parsing failure from previous response."
    match env.genRetry fb with
    | .raised _ => (Option.none, [.genCall, .genParseRetry fb])
    | .text p => (p, [.genCall, .genParseRetry fb])

/-- Validation with its single corrective retry (main lines 220-260): on
failure, generation is re-invoked once with the validator's error message
(`.get('error', 'Unknown validation error')`); a raised retry call, an
unparseable retry response, or a second validation failure skips the
cycle. -/
def stageValidate (env : CycleEnv) (formula_id_set : List String)
    (variable_ranges : List (String × Option (List ℚ)))
    (previous_problems : List PrevProblem) (c : Candidate) :
    Option (Candidate × ValidationResult) × List StageEvent :=
  let vr := validate_problem c formula_id_set variable_ranges previous_problems
  if vr.valid then (some (c, vr), [])
  else
    let fb := vr.error.getD "Unknown validation error"
    match env.genRetry fb with
    | .raised _ => (Option.none, [.genValidationRetry fb])
    | .text Option.none => (Option.none, [.genValidationRetry fb])
    | .text (some c2) =>
      let vr2 := validate_problem c2 formula_id_set variable_ranges previous_problems
      if vr2.valid then (some (c2, vr2), [.genValidationRetry fb])
      else (Option.none, [.genValidationRetry fb])

/-- Call3 + execution with its single corrective retry (main lines 269-311):
on an execution failure, code generation is re-invoked once with the
executor's error message (`.get('error', 'Execution failed')`); a raised
retry call or a second execution failure skips the cycle. -/
def stageExecute (env : CycleEnv) (c : Candidate) :
    Option ExecResult × List StageEvent :=
  match env.codeGen with
  | .raised _ => (Option.none, [.codeGenCall])
  | .code beh =>
    let r := execute_and_validate_in_repl beh c.vars
    if r.valid then (some r, [.codeGenCall])
    else
      let fb := r.error.getD "Execution failed"
      match env.codeRetry fb with
      | .raised _ => (Option.none, [.codeGenCall, .codeExecRetry fb])
      | .code beh2 =>
        let r2 := execute_and_validate_in_repl beh2 c.vars
        if r2.valid then (some r2, [.codeGenCall, .codeExecRetry fb])
        else (Option.none, [.codeGenCall, .codeExecRetry fb])

/-- One full generation cycle (the body of the two-cycle loop, main lines
172-336): generate (with parse retry), validate (with one corrective
retry), reject duplicates against the recent-history window, generate and
execute code (with one corrective retry), and on joint success build the
record. -/
def runCycle (env : CycleEnv) (formula_id_set : List String)
    (variable_ranges : List (String × Option (List ℚ)))
    (previous_problems : List PrevProblem) : CycleOutcome :=
  match stageGenerate env with
  | (Option.none, ev) => ⟨Option.none, ev⟩
  | (some c, ev1) =>
    match stageValidate env formula_id_set variable_ranges previous_problems c with
    | (Option.none, ev2) => ⟨Option.none, ev1 ++ ev2⟩
    | (some (c2, vr), ev2) =>
      let signature := compute_problem_signature c2
      if previous_problems.any (fun p => p.signature == some signature) then
        ⟨Option.none, ev1 ++ ev2⟩
      else
        match stageExecute env c2 with
        | (Option.none, ev3) => ⟨Option.none, ev1 ++ ev2 ++ ev3⟩
        | (some r, ev3) =>
          ⟨some ⟨signature, c2.word_problem, vr.unknown_var, r.result⟩, ev1 ++ ev2 ++ ev3⟩

/-! ### Orchestrator: per-row iteration loop
(main lines 65-66, 153-338) -/

/-- main line 65. -/
def max_iterations : ℕ := 12

/-- main line 66. -/
def target_problems : ℕ := 10

/-- The state the loop threads through cycles: the bounded recent-history
window and the row's successful records. -/
structure RowState where
  previous_problems : List PrevProblem
  per_row_successful : List SuccessRec
deriving Repr

/-- The success bookkeeping at main lines 313-336: on a successful cycle,
append the record and push `{signature, snippet}` onto the front of the
window, truncated to 10 entries. -/
def runCycleStep (env : CycleEnv) (formula_id_set : List String)
    (variable_ranges : List (String × Option (List ℚ))) (st : RowState) : RowState :=
  match (runCycle env formula_id_set variable_ranges st.previous_problems).record with
  | Option.none => st
  | some rec =>
    { previous_problems :=
        (⟨some rec.signature, rec.word_problem.take 140⟩ :: st.previous_problems).take 10,
      per_row_successful := st.per_row_successful ++ [rec] }

/-- The per-row `while` loop (main lines 158-338): while fewer than
`max_iterations` iterations have run and fewer than `target_problems`
records were collected, run two independent cycles.  `envs i c` is the
model's behaviour for cycle `c` of iteration `i`; the fuel argument makes
the recursion structural and is started at `max_iterations`, which the
guard `iter < max_iterations` never lets the loop exceed. -/
def runRowLoop (envs : ℕ → ℕ → CycleEnv) (formula_id_set : List String)
    (variable_ranges : List (String × Option (List ℚ))) :
    ℕ → ℕ → RowState → ℕ × RowState
  | 0, iter, st => (iter, st)
  | fuel + 1, iter, st =>
    if iter < max_iterations ∧ st.per_row_successful.length < target_problems then
      let st1 := runCycleStep (envs (iter + 1) 0) formula_id_set variable_ranges st
      let st2 := runCycleStep (envs (iter + 1) 1) formula_id_set variable_ranges st1
      runRowLoop envs formula_id_set variable_ranges fuel (iter + 1) st2
    else
      (iter, st)

/-- A full per-row run: the iteration counter and the row's success list
start at zero/empty (main lines 154-155), while the recent-history window
`prev0` carries over from earlier rows (it is initialised once, at main
line 74, outside the row loop). -/
def runRow (envs : ℕ → ℕ → CycleEnv) (formula_id_set : List String)
    (variable_ranges : List (String × Option (List ℚ)))
    (prev0 : List PrevProblem) : ℕ × RowState :=
  runRowLoop envs formula_id_set variable_ranges max_iterations 0 ⟨prev0, []⟩

/-! ### Instrumentation predicates and concrete scenarios -/

/-- Classifier for Call2a invocations caused by a parse failure. -/
def isGenParseRetry : StageEvent → Bool
  | .genParseRetry _ => true
  | _ => false

/-- Classifier for Call2a invocations caused by a validation failure. -/
def isGenValidationRetry : StageEvent → Bool
  | .genValidationRetry _ => true
  | _ => false

/-- Classifier for Call3a invocations caused by an execution failure. -/
def isCodeExecRetry : StageEvent → Bool
  | .codeExecRetry _ => true
  | _ => false

/-- The corrective Call2a with feedback `e` fails to yield a candidate that
validates: the call raises, its response does not parse, or the re-validated
candidate is again invalid. -/
def retryGenFails (env : CycleEnv) (formula_id_set : List String)
    (variable_ranges : List (String × Option (List ℚ)))
    (previous_problems : List PrevProblem) (e : String) : Prop :=
  match env.genRetry e with
  | .raised _ => True
  | .text Option.none => True
  | .text (some c2) =>
    (validate_problem c2 formula_id_set variable_ranges previous_problems).valid = false

/-- The corrective Call3a with feedback `e` fails: the call raises or the
regenerated code again fails execution validation. -/
def retryExecFails (env : CycleEnv) (c : Candidate) (e : String) : Prop :=
  match env.codeRetry e with
  | .raised _ => True
  | .code beh2 => (execute_and_validate_in_repl beh2 c.vars).valid = false

/-- A minimal candidate that passes validation against an empty formula set:
no formula ids and a single unknown variable named after `k`. -/
def okCandidate (k : ℕ) : Candidate :=
  ⟨"", [], [("u" ++ toString k, ⟨.strV "nan", ""⟩)]⟩

/-- Model behaviour for a cycle that succeeds end to end with the candidate
`okCandidate k`. -/
def okEnv (k : ℕ) : CycleEnv :=
  ⟨.text (some (okCandidate k)), fun _ => .raised "", .code (.returns (.num 1)), fun _ => .raised ""⟩

/-- Model behaviour for a cycle whose first generation call raises. -/
def failEnv : CycleEnv :=
  ⟨.raised "", fun _ => .raised "", .raised "", fun _ => .raised ""⟩

/-- A run in which only the very first cycle fails, so each iteration after
the first contributes two records: the target-count check between
iterations then lets the total reach eleven. -/
def envs11 : ℕ → ℕ → CycleEnv :=
  fun i c => if i = 1 ∧ c = 0 then failEnv else okEnv (2 * i + c)

/-- A candidate naming a formula id outside the known set. -/
def cBadFid : Candidate := ⟨"", ["F9"], []⟩

/-- Model behaviour where both the first Call2 and the corrective Call2a
produce the same invalid candidate: validation fails twice. -/
def envDoubleValFail : CycleEnv :=
  ⟨.text (some cBadFid), fun _ => .text (some cBadFid), .raised "", fun _ => .raised ""⟩

/-- A candidate that validates against an empty formula set. -/
def cOkExec : Candidate := ⟨"", [], [("x", ⟨.strV "nan", "m"⟩)]⟩

/-- Model behaviour where both the first Call3 and the corrective Call3a
produce code whose `solve` returns NaN: execution fails twice. -/
def envDoubleExecFail : CycleEnv :=
  ⟨.text (some cOkExec), fun _ => .raised "",
   .code (.returns .nanV), fun _ => .code (.returns .nanV)⟩

end PGen

namespace PGen

/-! ### Helper lemmas -/

/-- With an empty range table the per-variable range check never fires. -/
lemma varRangeError_nil (kv : String × VarData) : varRangeError [] kv = Option.none := by
  unfold varRangeError
  split <;> simp

/-- Function `findSome?` over a function that is constantly `none`. -/
lemma findSome?_varRangeError_nil (l : List (String × VarData)) :
    l.findSome? (varRangeError []) = Option.none := by
  induction l with
  | nil => rfl
  | cons kv t ih => simp [List.findSome?, varRangeError_nil, ih]

end PGen

namespace PGen

/-! ### Order properties of the string comparison used by `sorted` -/

lemma lexLe_total : ∀ a b : List Char, lexLe a b = true ∨ lexLe b a = true := by
  intro a
  induction a with
  | nil => intro b; left; cases b <;> rfl
  | cons x xs ih =>
    intro b
    cases b with
    | nil => right; rfl
    | cons y ys =>
      by_cases hxy : x.toNat < y.toNat
      · left; simp [lexLe, hxy]
      · by_cases hyx : y.toNat < x.toNat
        · right; simp [lexLe, hyx]
        · rcases ih ys with h | h
          · left; simp [lexLe, hxy, hyx, h]
          · right; simp [lexLe, hxy, hyx, h]

lemma lexLe_trans : ∀ a b c : List Char,
    lexLe a b = true → lexLe b c = true → lexLe a c = true := by
  intro a
  induction a with
  | nil => intro b c _ _; cases c <;> simp [lexLe]
  | cons x xs ih =>
    intro b c hab hbc
    cases b with
    | nil => simp [lexLe] at hab
    | cons y ys =>
      cases c with
      | nil => simp [lexLe] at hbc
      | cons z zs =>
        simp only [lexLe] at hab hbc ⊢
        by_cases hxy : x.toNat < y.toNat
        · by_cases hyz : y.toNat < z.toNat
          · simp [Nat.lt_trans hxy hyz]
          · by_cases hzy : z.toNat < y.toNat
            · simp [hyz, hzy] at hbc
            · have : y.toNat = z.toNat :=
                Nat.le_antisymm (Nat.le_of_not_lt hzy) (Nat.le_of_not_lt hyz)
              simp [this ▸ hxy]
        · by_cases hyx : y.toNat < x.toNat
          · simp [hxy, hyx] at hab
          · have hxyeq : x.toNat = y.toNat :=
              Nat.le_antisymm (Nat.le_of_not_lt hyx) (Nat.le_of_not_lt hxy)
            by_cases hyz : y.toNat < z.toNat
            · simp [hxyeq ▸ hyz]
            · by_cases hzy : z.toNat < y.toNat
              · simp [hyz, hzy] at hbc
              · simp only [hxy, hyx, if_false] at hab
                simp only [hyz, hzy, if_false] at hbc
                have hxz : ¬ x.toNat < z.toNat := by omega
                have hzx : ¬ z.toNat < x.toNat := by omega
                simp [hxz, hzx, ih ys zs hab hbc]

lemma lexLe_antisymm : ∀ a b : List Char,
    lexLe a b = true → lexLe b a = true → a = b := by
  intro a
  induction a with
  | nil =>
    intro b _ hba
    cases b with
    | nil => rfl
    | cons y ys => simp [lexLe] at hba
  | cons x xs ih =>
    intro b hab hba
    cases b with
    | nil => simp [lexLe] at hab
    | cons y ys =>
      simp only [lexLe] at hab hba
      by_cases hxy : x.toNat < y.toNat
      · simp [hxy] at hba; omega
      · by_cases hyx : y.toNat < x.toNat
        · simp [hxy, hyx] at hab
        · have hchar : x = y :=
            Char.ext (UInt32.ext (Nat.le_antisymm (Nat.le_of_not_lt hyx) (Nat.le_of_not_lt hxy)))
          simp only [hxy, hyx, if_false] at hab
          simp only [hyx, hxy, if_false] at hba
          rw [hchar, ih ys hab hba]

instance : IsTotal String (fun a b => strLe a b = true) :=
  ⟨fun a b => lexLe_total a.data b.data⟩

instance : IsTrans String (fun a b => strLe a b = true) :=
  ⟨fun a b c => lexLe_trans a.data b.data c.data⟩

instance : IsAntisymm String (fun a b => strLe a b = true) :=
  ⟨fun a b hab hba => String.ext (lexLe_antisymm a.data b.data hab hba)⟩

/-- Sorting is invariant under permutation of the input: both sorts are
sorted for the same total, transitive, antisymmetric order and are
permutations of one another. -/
lemma sortStrings_perm_invariant {l₁ l₂ : List String} (h : l₁.Perm l₂) :
    sortStrings l₁ = sortStrings l₂ := by
  exact @List.eq_of_perm_of_sorted String (fun a b => strLe a b = true) _ _ _
    (((List.perm_insertionSort _ l₁).trans h).trans (List.perm_insertionSort _ l₂).symm)
    (List.sorted_insertionSort _ l₁) (List.sorted_insertionSort _ l₂)

lemma string_append_cancel_left {p u v : String} (h : p ++ u = p ++ v) : u = v := by
  apply String.ext
  have := congrArg String.data h
  simp only [String.data_append] at this
  exact List.append_cancel_left this

/-! ### Properties of the per-variable range check -/

/-- Reduction of `varRangeError` once a well-formed two-element range is
found for a non-sentinel variable. -/
lemma varRangeError_fires (ranges : List (String × Option (List ℚ))) (name : String)
    (vd : VarData) (mn mx : ℚ)
    (hnan : isNanSentinel vd.value = false)
    (hrange : (ranges.find? (fun e => e.1 == name)).map (fun e => e.2) = some (some [mn, mx])) :
    varRangeError ranges (name, vd) =
      (match pyFloat vd.value with
       | Option.none =>
         some ("Variable '" ++ name ++ "' has an invalid numerical value: '" ++ pyStr vd.value ++ "'.")
       | some actual =>
         if !(pLe (.fin mn) actual && pLe actual (.fin mx)) then
           some (name ++ " with value " ++ varRangeError.pFloatStr actual ++
             " is out of expected range [" ++ toString mn ++ ", " ++ toString mx ++ "].")
         else
           Option.none) := by
  unfold varRangeError
  rw [hnan]
  simp only [Bool.false_eq_true, if_false, hrange]

/-! ### Properties of the merge fold -/

lemma mem_initialSignatures {r : SRecord} {l : List SRecord}
    (hmem : r ∈ l) (hne : r.signature ≠ "") : r.signature ∈ initialSignatures l := by
  unfold initialSignatures
  rw [List.mem_filter]
  exact ⟨List.mem_map_of_mem _ hmem, by simpa using hne⟩

lemma initialSignatures_append_single (l : List SRecord) (r : SRecord) :
    initialSignatures (l ++ [r]) =
      initialSignatures l ++ (if r.signature ≠ "" then [r.signature] else []) := by
  unfold initialSignatures
  rw [List.map_append, List.filter_append]
  simp [List.filter]
  split <;> simp_all

lemma mergeFold_sigs_mono (new : List SRecord) :
    ∀ acc : List SRecord × List String, ∀ s : String,
      s ∈ acc.2 → s ∈ (new.foldl mergeStep acc).2 := by
  induction new with
  | nil => intro acc s h; exact h
  | cons x t ih =>
    intro acc s h
    rw [List.foldl_cons]
    apply ih
    unfold mergeStep
    split
    · exact List.mem_append_left _ h
    · exact h

lemma mergeFold_noop (new : List SRecord) :
    ∀ acc : List SRecord × List String,
      (∀ r ∈ new, r.signature = "" ∨ r.signature ∈ acc.2) →
      new.foldl mergeStep acc = acc := by
  induction new with
  | nil => intro acc _; rfl
  | cons x t ih =>
    intro acc h
    rw [List.foldl_cons]
    have hx : mergeStep acc x = acc := by
      unfold mergeStep
      rcases h x (List.mem_cons_self x t) with h1 | h1 <;>
        · rw [if_neg]; intro hc; exact absurd h1 (by tauto)
    rw [hx]
    exact ih acc (fun r hr => h r (List.mem_cons_of_mem x hr))

lemma mergeFold_inv (new : List SRecord) :
    ∀ acc : List SRecord × List String,
      acc.1.Pairwise (fun a b => a.signature ≠ b.signature) →
      acc.2 = initialSignatures acc.1 →
      ((new.foldl mergeStep acc).1.Pairwise (fun a b => a.signature ≠ b.signature)
        ∧ (new.foldl mergeStep acc).2 = initialSignatures (new.foldl mergeStep acc).1) := by
  induction new with
  | nil => intro acc h1 h2; exact ⟨h1, h2⟩
  | cons x t ih =>
    intro acc h1 h2
    rw [List.foldl_cons]
    by_cases hc : x.signature ≠ "" ∧ x.signature ∉ acc.2
    · have hstep : mergeStep acc x = (acc.1 ++ [x], acc.2 ++ [x.signature]) := by
        unfold mergeStep; rw [if_pos hc]
      rw [hstep]
      apply ih
      · rw [List.pairwise_append]
        refine ⟨h1, List.pairwise_singleton _ _, ?_⟩
        intro a ha b hb
        rw [List.mem_singleton] at hb
        subst hb
        intro heq
        by_cases hae : a.signature = ""
        · exact hc.1 (heq ▸ hae)
        · exact hc.2 (heq ▸ (h2 ▸ mem_initialSignatures ha hae))
      · rw [initialSignatures_append_single, if_pos hc.1, h2]
    · have hstep : mergeStep acc x = acc := by
        unfold mergeStep; rw [if_neg hc]
      rw [hstep]
      exact ih acc h1 h2

lemma mergeFold_covers (new : List SRecord) :
    ∀ acc : List SRecord × List String, ∀ r ∈ new,
      r.signature = "" ∨ r.signature ∈ (new.foldl mergeStep acc).2 := by
  induction new with
  | nil => intro acc r h; exact absurd h (List.not_mem_nil r)
  | cons x t ih =>
    intro acc r hr
    rw [List.foldl_cons]
    rcases List.mem_cons.mp hr with rfl | hrt
    · by_cases hc : r.signature ≠ "" ∧ r.signature ∉ acc.2
      · right
        apply mergeFold_sigs_mono
        unfold mergeStep
        rw [if_pos hc]
        exact List.mem_append_right _ (List.mem_singleton_self _)
      · rcases not_and_or.mp hc with h1 | h1
        · left; simpa using h1
        · right
          apply mergeFold_sigs_mono
          unfold mergeStep
          split
          · exact List.mem_append_left _ (not_not.mp h1)
          · exact not_not.mp h1
    · exact ih (mergeStep acc x) r hrt

lemma mergeFold_appends (new : List SRecord) :
    ∀ acc : List SRecord × List String,
      ∃ app : List SRecord,
        (new.foldl mergeStep acc).1 = acc.1 ++ app
        ∧ ∀ r ∈ app, r ∈ new ∧ r.signature ∉ acc.2 := by
  induction new with
  | nil => intro acc; exact ⟨[], by simp, by simp⟩
  | cons x t ih =>
    intro acc
    rw [List.foldl_cons]
    by_cases hc : x.signature ≠ "" ∧ x.signature ∉ acc.2
    · have hstep : mergeStep acc x = (acc.1 ++ [x], acc.2 ++ [x.signature]) := by
        unfold mergeStep; rw [if_pos hc]
      obtain ⟨app, happ, hprop⟩ := ih (mergeStep acc x)
      refine ⟨x :: app, ?_, ?_⟩
      · rw [happ, hstep]
        simp
      · intro r hr
        rcases List.mem_cons.mp hr with rfl | hra
        · exact ⟨List.mem_cons_self _ _, hc.2⟩
        · obtain ⟨hrt, hrs⟩ := hprop r hra
          refine ⟨List.mem_cons_of_mem _ hrt, fun hmem => hrs ?_⟩
          rw [hstep]
          exact List.mem_append_left _ hmem
    · have hstep : mergeStep acc x = acc := by
        unfold mergeStep; rw [if_neg hc]
      obtain ⟨app, happ, hprop⟩ := ih (mergeStep acc x)
      refine ⟨app, by rw [happ, hstep], ?_⟩
      intro r hr
      obtain ⟨hrt, hrs⟩ := hprop r hr
      exact ⟨List.mem_cons_of_mem _ hrt, by rw [hstep] at hrs; exact hrs⟩

/-! ### Properties of the cycle stage functions -/

lemma stageGenerate_counts (env : CycleEnv) :
    (stageGenerate env).2.countP isGenParseRetry ≤ 1
    ∧ (stageGenerate env).2.countP isGenValidationRetry = 0
    ∧ (stageGenerate env).2.countP isCodeExecRetry = 0 := by
  unfold stageGenerate
  rcases env.gen with m | p
  · simp [List.countP, List.countP.go, isGenParseRetry, isGenValidationRetry, isCodeExecRetry]
  · rcases p with _ | c
    · rcases henv : env.genRetry "Parsing failure from previous response." with m | p <;>
        simp [henv, List.countP, List.countP.go,
          isGenParseRetry, isGenValidationRetry, isCodeExecRetry]
    · simp [List.countP, List.countP.go, isGenParseRetry, isGenValidationRetry, isCodeExecRetry]

lemma stageValidate_counts (env : CycleEnv) (fset : List String)
    (ranges : List (String × Option (List ℚ))) (prev : List PrevProblem) (c : Candidate) :
    (stageValidate env fset ranges prev c).2.countP isGenParseRetry = 0
    ∧ (stageValidate env fset ranges prev c).2.countP isGenValidationRetry ≤ 1
    ∧ (stageValidate env fset ranges prev c).2.countP isCodeExecRetry = 0 := by
  by_cases hv : (validate_problem c fset ranges prev).valid = true
  · simp [stageValidate, hv, List.countP, List.countP.go]
  · rcases henv : env.genRetry ((validate_problem c fset ranges prev).error.getD "Unknown validation error") with m | p
    · simp [stageValidate, hv, henv, List.countP, List.countP.go,
        isGenParseRetry, isGenValidationRetry, isCodeExecRetry]
    · rcases p with _ | c2
      · simp [stageValidate, hv, henv, List.countP, List.countP.go,
          isGenParseRetry, isGenValidationRetry, isCodeExecRetry]
      · by_cases hv2 : (validate_problem c2 fset ranges prev).valid = true <;>
          simp [stageValidate, hv, hv2, henv, List.countP, List.countP.go,
            isGenParseRetry, isGenValidationRetry, isCodeExecRetry]

lemma stageExecute_counts (env : CycleEnv) (c : Candidate) :
    (stageExecute env c).2.countP isGenParseRetry = 0
    ∧ (stageExecute env c).2.countP isGenValidationRetry = 0
    ∧ (stageExecute env c).2.countP isCodeExecRetry ≤ 1 := by
  rcases hcg : env.codeGen with m | beh
  · simp [stageExecute, hcg, List.countP, List.countP.go,
      isGenParseRetry, isGenValidationRetry, isCodeExecRetry]
  · by_cases hr : (execute_and_validate_in_repl beh c.vars).valid = true
    · simp [stageExecute, hcg, hr, List.countP, List.countP.go,
        isGenParseRetry, isGenValidationRetry, isCodeExecRetry]
    · rcases henv : env.codeRetry ((execute_and_validate_in_repl beh c.vars).error.getD "Execution failed") with m | beh2
      · simp [stageExecute, hcg, hr, henv, List.countP, List.countP.go,
          isGenParseRetry, isGenValidationRetry, isCodeExecRetry]
      · by_cases hr2 : (execute_and_validate_in_repl beh2 c.vars).valid = true <;>
          simp [stageExecute, hcg, hr, hr2, henv, List.countP, List.countP.go,
            isGenParseRetry, isGenValidationRetry, isCodeExecRetry]

/-- The event trace of a cycle is a concatenation of at most one trace per
stage. -/
lemma runCycle_events_decomp (env : CycleEnv) (fset : List String)
    (ranges : List (String × Option (List ℚ))) (prev : List PrevProblem) :
    (runCycle env fset ranges prev).events = (stageGenerate env).2
    ∨ (∃ c, (runCycle env fset ranges prev).events
          = (stageGenerate env).2 ++ (stageValidate env fset ranges prev c).2)
    ∨ (∃ c c2, (runCycle env fset ranges prev).events
          = (stageGenerate env).2 ++ (stageValidate env fset ranges prev c).2
            ++ (stageExecute env c2).2) := by
  unfold runCycle
  split
  · rename_i ev heq
    left
    rw [heq]
  · rename_i c ev1 heq
    split
    · rename_i ev2 heq2
      right; left
      exact ⟨c, by rw [heq, heq2]⟩
    · rename_i c2 vr ev2 heq2
      by_cases hdup : (prev.any fun p => p.signature == some (compute_problem_signature c2)) = true
      · right; left
        refine ⟨c, ?_⟩
        rw [heq, heq2]
        simp [hdup]
      · right; right
        refine ⟨c, c2, ?_⟩
        rw [heq, heq2]
        rcases hse : stageExecute env c2 with ⟨o, ev3⟩
        rcases o with _ | r <;> simp [hdup, hse]

/-! ### Properties of the per-row loop -/

lemma runCycleStep_length (env : CycleEnv) (fset : List String)
    (ranges : List (String × Option (List ℚ))) (st : RowState) :
    (runCycleStep env fset ranges st).per_row_successful.length
      ≤ st.per_row_successful.length + 1 := by
  unfold runCycleStep
  split
  · omega
  · simp

lemma runRowLoop_success_bound (envs : ℕ → ℕ → CycleEnv) (fset : List String)
    (ranges : List (String × Option (List ℚ))) :
    ∀ fuel iter : ℕ, ∀ st : RowState,
      st.per_row_successful.length ≤ target_problems + 1 →
      (runRowLoop envs fset ranges fuel iter st).2.per_row_successful.length
        ≤ target_problems + 1 := by
  intro fuel
  induction fuel with
  | zero => intro iter st h; exact h
  | succ f ih =>
    intro iter st h
    unfold runRowLoop
    split
    · rename_i hguard
      apply ih
      have h1 := runCycleStep_length (envs (iter + 1) 0) fset ranges st
      have h2 := runCycleStep_length (envs (iter + 1) 1) fset ranges
        (runCycleStep (envs (iter + 1) 0) fset ranges st)
      have := hguard.2
      unfold target_problems at *
      omega
    · exact h

lemma runRowLoop_iter_bound (envs : ℕ → ℕ → CycleEnv) (fset : List String)
    (ranges : List (String × Option (List ℚ))) :
    ∀ fuel iter : ℕ, ∀ st : RowState,
      (runRowLoop envs fset ranges fuel iter st).1 ≤ iter + fuel := by
  intro fuel
  induction fuel with
  | zero => intro iter st; simp [runRowLoop]
  | succ f ih =>
    intro iter st
    unfold runRowLoop
    split
    · show (runRowLoop envs fset ranges f (iter + 1)
        (runCycleStep (envs (iter + 1) 1) fset ranges
          (runCycleStep (envs (iter + 1) 0) fset ranges st))).1 ≤ iter + (f + 1)
      have := ih (iter + 1) (runCycleStep (envs (iter + 1) 1) fset ranges
        (runCycleStep (envs (iter + 1) 0) fset ranges st))
      omega
    · omega

end PGen

namespace PGen

/-! ### Claim theorems -/

/-- C1 (counterexample): the claim states the unknown sentinel is the string
"unknown", and that the map {mass: 4, acceleration: "unknown"} validates
with unknown_var = "acceleration".  On the code the sentinel test is
`str(value).lower() == 'nan'`, so the string "unknown" is NOT a sentinel:
that exact map is rejected with "Must have exactly 1 unknown, found 0". -/
theorem validate_unknown_string_literal_rejected :
    validate_problem
      ⟨"", ["F1", "F2"],
        [("mass", ⟨.num 4, "kg"⟩), ("acceleration", ⟨.strV "unknown", "m/s^2"⟩)]⟩
      ["F1", "F2"] [] []
    = ⟨false, some "Must have exactly 1 unknown, found 0", Option.none⟩ := by rfl

/-- C1 (amended): for every candidate whose formula ids are all known, with
no declared ranges and an empty history, `validate_problem` returns
valid = false iff the number of entries carrying the "nan" sentinel (the
value whose Python string form lower-cases to "nan" — not the string
"unknown") differs from 1; the error message then reports the count found;
and when exactly one entry carries the sentinel the result is valid with
`unknown_var` set to that entry's name. -/
theorem validate_unknown_count_spec (c : Candidate) (fset : List String)
    (hfid : c.formula_ids.all (fun fid => fset.contains fid) = true) :
    ((validate_problem c fset [] []).valid = false ↔ (nanVars c.vars).length ≠ 1)
    ∧ ((nanVars c.vars).length ≠ 1 →
        (validate_problem c fset [] []).error =
          some ("Must have exactly 1 unknown, found " ++ toString (nanVars c.vars).length))
    ∧ (∀ k vd, c.vars.filter (fun kv => isNanSentinel kv.2.value) = [(k, vd)] →
        (validate_problem c fset [] []).valid = true
        ∧ (validate_problem c fset [] []).unknown_var = some k) := by
  unfold validate_problem
  rw [hfid]
  simp only [Bool.not_true, Bool.false_eq_true, if_false, findSome?_varRangeError_nil,
    List.any_nil]
  by_cases h1 : (nanVars c.vars).length = 1
  · simp only [h1]
    refine ⟨by simp, by simp, ?_⟩
    intro k vd hfilter
    simp [nanVars, hfilter]
  · simp only [h1, if_pos, ne_eq, not_false_iff]
    refine ⟨by simp [h1], by simp, ?_⟩
    intro k vd hfilter
    exfalso
    apply h1
    simp [nanVars, hfilter]

/-- Witness for C1: the claimed end-to-end map, with the sentinel the code
actually recognises ("NaN"), validates with unknown_var = "acceleration". -/
theorem validate_unknown_count_spec_witness :
    (validate_problem
        ⟨"", ["F1", "F2"],
          [("mass", ⟨.num 4, "kg"⟩), ("acceleration", ⟨.strV "NaN", "m/s^2"⟩)]⟩
        ["F1", "F2"] [] []).valid = true
    ∧ (validate_problem
        ⟨"", ["F1", "F2"],
          [("mass", ⟨.num 4, "kg"⟩), ("acceleration", ⟨.strV "NaN", "m/s^2"⟩)]⟩
        ["F1", "F2"] [] []).unknown_var = some "acceleration" :=
  (validate_unknown_count_spec
    ⟨"", ["F1", "F2"],
      [("mass", ⟨.num 4, "kg"⟩), ("acceleration", ⟨.strV "NaN", "m/s^2"⟩)]⟩
    ["F1", "F2"] (by rfl)).2.2 "acceleration" ⟨.strV "NaN", "m/s^2"⟩ (by rfl)

/-- C2: per cycle, each stage performs at most one corrective retry (at most
one parse retry, one validation retry, one execution retry appear in the
trace); on a validation failure generation is re-invoked with the
validator's error message as feedback, and if that retry also fails the
cycle is abandoned with no record; likewise on an execution failure code
generation is re-invoked with the executor's error message, and a second
failure abandons the cycle. -/
theorem cycle_retry_exactly_once (env : CycleEnv) (fset : List String)
    (ranges : List (String × Option (List ℚ))) (prev : List PrevProblem) :
    ((runCycle env fset ranges prev).events.countP isGenParseRetry ≤ 1
      ∧ (runCycle env fset ranges prev).events.countP isGenValidationRetry ≤ 1
      ∧ (runCycle env fset ranges prev).events.countP isCodeExecRetry ≤ 1)
    ∧ (∀ c e, env.gen = .text (some c) →
        (validate_problem c fset ranges prev).valid = false →
        (validate_problem c fset ranges prev).error = some e →
        (StageEvent.genValidationRetry e ∈ (runCycle env fset ranges prev).events
          ∧ (retryGenFails env fset ranges prev e →
              (runCycle env fset ranges prev).record = Option.none)))
    ∧ (∀ c beh e, env.gen = .text (some c) →
        (validate_problem c fset ranges prev).valid = true →
        prev.any (fun p => p.signature == some (compute_problem_signature c)) = false →
        env.codeGen = .code beh →
        (execute_and_validate_in_repl beh c.vars).valid = false →
        (execute_and_validate_in_repl beh c.vars).error = some e →
        (StageEvent.codeExecRetry e ∈ (runCycle env fset ranges prev).events
          ∧ (retryExecFails env c e →
              (runCycle env fset ranges prev).record = Option.none))) := by
  refine ⟨?_, ?_, ?_⟩
  · have hg := stageGenerate_counts env
    rcases runCycle_events_decomp env fset ranges prev with h | ⟨c, h⟩ | ⟨c, c2, h⟩
    · rw [h]
      exact ⟨hg.1, by omega, by omega⟩
    · have hv := stageValidate_counts env fset ranges prev c
      rw [h]
      simp only [List.countP_append]
      exact ⟨by omega, by omega, by omega⟩
    · have hv := stageValidate_counts env fset ranges prev c
      have he := stageExecute_counts env c2
      rw [h]
      simp only [List.countP_append]
      exact ⟨by omega, by omega, by omega⟩
  · intro c e hgen hval herr
    have hsg : stageGenerate env = (some c, [StageEvent.genCall]) := by
      simp [stageGenerate, hgen]
    have hfb : (validate_problem c fset ranges prev).error.getD "Unknown validation error" = e := by
      rw [herr]
      rfl
    rcases hr : env.genRetry e with m | p
    · have hsv : stageValidate env fset ranges prev c
          = (Option.none, [StageEvent.genValidationRetry e]) := by
        rw [stageValidate, hfb]
        simp [hval, hr]
      exact ⟨by simp [runCycle, hsg, hsv], fun _ => by simp [runCycle, hsg, hsv]⟩
    · rcases p with _ | c2
      · have hsv : stageValidate env fset ranges prev c
            = (Option.none, [StageEvent.genValidationRetry e]) := by
          rw [stageValidate, hfb]
          simp [hval, hr]
        exact ⟨by simp [runCycle, hsg, hsv], fun _ => by simp [runCycle, hsg, hsv]⟩
      · by_cases hv2 : (validate_problem c2 fset ranges prev).valid = true
        · have hsv : stageValidate env fset ranges prev c
              = (some (c2, validate_problem c2 fset ranges prev),
                 [StageEvent.genValidationRetry e]) := by
            rw [stageValidate, hfb]
            simp [hval, hr, hv2]
          constructor
          · simp only [runCycle, hsg, hsv]
            split
            · simp
            · split <;> simp
          · intro hfail
            exfalso
            unfold retryGenFails at hfail
            rw [hr] at hfail
            rw [hfail] at hv2
            exact Bool.false_ne_true hv2
        · have hsv : stageValidate env fset ranges prev c
              = (Option.none, [StageEvent.genValidationRetry e]) := by
            rw [stageValidate, hfb]
            simp [hval, hr, hv2]
          exact ⟨by simp [runCycle, hsg, hsv], fun _ => by simp [runCycle, hsg, hsv]⟩
  · intro c beh e hgen hvalid hnodup hcg hexec herr
    have hsg : stageGenerate env = (some c, [StageEvent.genCall]) := by
      simp [stageGenerate, hgen]
    have hsv : stageValidate env fset ranges prev c
        = (some (c, validate_problem c fset ranges prev), []) := by
      rw [stageValidate]
      simp [hvalid]
    have hfb : (execute_and_validate_in_repl beh c.vars).error.getD "Execution failed" = e := by
      rw [herr]
      rfl
    rcases hrr : env.codeRetry e with m | beh2
    · have hse : stageExecute env c
          = (Option.none, [StageEvent.codeGenCall, StageEvent.codeExecRetry e]) := by
        rw [stageExecute, hcg]
        simp only [hexec, hfb, hrr]
        simp
      exact ⟨by simp [runCycle, hsg, hsv, hnodup, hse],
        fun _ => by simp [runCycle, hsg, hsv, hnodup, hse]⟩
    · by_cases hr2 : (execute_and_validate_in_repl beh2 c.vars).valid = true
      · have hse : stageExecute env c
            = (some (execute_and_validate_in_repl beh2 c.vars),
               [StageEvent.codeGenCall, StageEvent.codeExecRetry e]) := by
          rw [stageExecute, hcg]
          simp only [hexec, hfb, hrr]
          simp [hr2]
        constructor
        · simp [runCycle, hsg, hsv, hnodup, hse]
        · intro hfail
          exfalso
          unfold retryExecFails at hfail
          rw [hrr] at hfail
          rw [hfail] at hr2
          exact Bool.false_ne_true hr2
      · have hse : stageExecute env c
            = (Option.none, [StageEvent.codeGenCall, StageEvent.codeExecRetry e]) := by
          rw [stageExecute, hcg]
          simp only [hexec, hfb, hrr]
          simp [hr2]
        exact ⟨by simp [runCycle, hsg, hsv, hnodup, hse],
          fun _ => by simp [runCycle, hsg, hsv, hnodup, hse]⟩

/-- Witness for C2: with a candidate that fails validation twice the cycle
performed the corrective retry with the validator's message and ended with
no record; with code that fails execution twice, likewise with the
executor's message. -/
theorem cycle_retry_exactly_once_witness :
    (StageEvent.genValidationRetry "Invalid formula_id"
        ∈ (runCycle envDoubleValFail ["F1"] [] []).events
      ∧ (runCycle envDoubleValFail ["F1"] [] []).record = Option.none)
    ∧ (StageEvent.codeExecRetry "Result is NaN or Inf"
        ∈ (runCycle envDoubleExecFail [] [] []).events
      ∧ (runCycle envDoubleExecFail [] [] []).record = Option.none) := by
  constructor
  · have h := (cycle_retry_exactly_once envDoubleValFail ["F1"] [] []).2.1
      cBadFid "Invalid formula_id" rfl (by rfl) (by rfl)
    exact ⟨h.1, h.2 (show (validate_problem cBadFid ["F1"] [] []).valid = false from rfl)⟩
  · have h := (cycle_retry_exactly_once envDoubleExecFail [] [] []).2.2
      cOkExec (.returns .nanV) "Result is NaN or Inf" rfl (by rfl) (by rfl) rfl (by rfl) (by rfl)
    exact ⟨h.1, h.2 (show (execute_and_validate_in_repl (.returns .nanV) cOkExec.vars).valid
      = false from rfl)⟩

end PGen

namespace PGen

/-- C3: `execute_and_validate_in_repl` produces exactly the specified error
string in each failure case — no callable `solve` defined (whatever else the
code defines); any raise while running the code or `solve()`; a missing or
non-numeric return; a non-finite return; a negative return when the first
unknown variable's name contains one of the fixed tokens (case-insensitive
substring) — and valid = true with the returned value in every other
case. -/
theorem execute_failure_modes :
    (∀ vars, execute_and_validate_in_repl .noSolve vars
        = ⟨false, some "'solve()' function not found", Option.none⟩)
    ∧ (∀ m vars, execute_and_validate_in_repl (.solveError m) vars
        = ⟨false, some ("Execution failed: " ++ m), Option.none⟩)
    ∧ (∀ m vars, execute_and_validate_in_repl (.execError m) vars
        = ⟨false, some ("Execution failed: " ++ m), Option.none⟩)
    ∧ (∀ vars, execute_and_validate_in_repl (.returns .noneV) vars
        = ⟨false, some "Invalid return type", Option.none⟩)
    ∧ (∀ s vars, execute_and_validate_in_repl (.returns (.strV s)) vars
        = ⟨false, some "Invalid return type", Option.none⟩)
    ∧ (∀ vars, execute_and_validate_in_repl (.returns .nanV) vars
        = ⟨false, some "Result is NaN or Inf", Option.none⟩
      ∧ execute_and_validate_in_repl (.returns .infV) vars
        = ⟨false, some "Result is NaN or Inf", Option.none⟩
      ∧ execute_and_validate_in_repl (.returns .ninfV) vars
        = ⟨false, some "Result is NaN or Inf", Option.none⟩)
    ∧ (∀ q vars u rest, nanVars vars = u :: rest → q < 0 →
        negTokens.any (fun x => strContains (lowerStr u) x) = true →
        execute_and_validate_in_repl (.returns (.num q)) vars
          = ⟨false, some ("Negative value for " ++ u), some (.num q)⟩)
    ∧ (∀ q vars,
        (∀ u rest, nanVars vars = u :: rest →
          ¬(q < 0 ∧ negTokens.any (fun x => strContains (lowerStr u) x) = true)) →
        execute_and_validate_in_repl (.returns (.num q)) vars
          = ⟨true, Option.none, some (.num q)⟩) := by
  refine ⟨fun vars => rfl, fun m vars => rfl, fun m vars => rfl, fun vars => rfl,
    fun s vars => rfl, fun vars => ⟨rfl, rfl, rfl⟩, ?_, ?_⟩
  · intro q vars u rest hnan hq htok
    unfold execute_and_validate_in_repl
    simp only [hnan]
    simp [pyIsNumber, pyNonFinite, pyNeg, hq, htok]
  · intro q vars hcond
    unfold execute_and_validate_in_repl
    cases hnv : nanVars vars with
    | nil => simp [pyIsNumber, pyNonFinite, hnv]
    | cons u rest =>
      have := hcond u rest hnv
      by_cases hq : q < 0
      · have htok : negTokens.any (fun x => strContains (lowerStr u) x) = false := by
          rcases Bool.eq_false_or_eq_true (negTokens.any (fun x => strContains (lowerStr u) x)) with h | h
          · exact absurd ⟨hq, h⟩ this
          · exact h
        simp [pyIsNumber, pyNonFinite, pyNeg, hnv, htok]
      · simp [pyIsNumber, pyNonFinite, pyNeg, hnv, hq]

/-- Witness for C3: `solve` returning -5 is rejected when the unknown is
"distance" and accepted when it is "charge". -/
theorem execute_failure_modes_witness :
    execute_and_validate_in_repl (.returns (.num (-5))) [("distance", ⟨.strV "nan", "m"⟩)]
      = ⟨false, some "Negative value for distance", some (.num (-5))⟩
    ∧ execute_and_validate_in_repl (.returns (.num (-5))) [("charge", ⟨.strV "nan", "C"⟩)]
      = ⟨true, Option.none, some (.num (-5))⟩ := by
  constructor
  · exact execute_failure_modes.2.2.2.2.2.2.1 (-5)
      [("distance", ⟨.strV "nan", "m"⟩)] "distance" [] (by rfl) (by norm_num) (by rfl)
  · refine execute_failure_modes.2.2.2.2.2.2.2 (-5)
      [("charge", ⟨.strV "nan", "C"⟩)] ?_
    intro u rest hu
    have hu' : ["charge"] = u :: rest := hu
    rintro ⟨hq, htok⟩
    have hueq : u = "charge" := by
      injection hu' with h1 h2
      exact h1.symm
    rw [hueq] at htok
    have hfalse : (negTokens.any fun x => strContains (lowerStr "charge") x) = false := rfl
    rw [hfalse] at htok
    exact Bool.false_ne_true htok

/-- C4: the problem signature is the sorted formula ids joined by commas
between "fids=[" and "]|unknown=" followed by the unknown variable's name;
it is invariant under permutation of `formula_ids`, a total function, and
sensitive to the unknown variable's name. -/
theorem signature_sorted_total_sensitive :
    (∀ c₁ c₂ : Candidate, c₁.formula_ids.Perm c₂.formula_ids → c₁.vars = c₂.vars →
        compute_problem_signature c₁ = compute_problem_signature c₂)
    ∧ (∀ c₁ c₂ : Candidate, ∀ u₁ u₂ : String,
        c₁.formula_ids.Perm c₂.formula_ids →
        (c₁.vars.find? (fun kv => isNanSentinel kv.2.value)).map (fun kv => kv.1) = some u₁ →
        (c₂.vars.find? (fun kv => isNanSentinel kv.2.value)).map (fun kv => kv.1) = some u₂ →
        u₁ ≠ u₂ →
        compute_problem_signature c₁ ≠ compute_problem_signature c₂)
    ∧ (∀ c : Candidate, ∀ u : String,
        (c.vars.find? (fun kv => isNanSentinel kv.2.value)).map (fun kv => kv.1) = some u →
        compute_problem_signature c =
          "fids=[" ++ String.intercalate "," (sortStrings c.formula_ids) ++ "]|unknown=" ++ u) := by
  refine ⟨?_, ?_, ?_⟩
  · intro c₁ c₂ hperm hvars
    unfold compute_problem_signature
    rw [sortStrings_perm_invariant hperm, hvars]
  · intro c₁ c₂ u₁ u₂ hperm hu₁ hu₂ hne
    unfold compute_problem_signature
    rw [sortStrings_perm_invariant hperm, hu₁, hu₂]
    intro hcontra
    exact hne (string_append_cancel_left hcontra)
  · intro c u hu
    unfold compute_problem_signature
    rw [hu]

/-- Witness for C4: ["F2","F1"] and ["F1","F2"] with unknown "acceleration"
share the signature "fids=[F1,F2]|unknown=acceleration"; the same formula
set with unknowns "a" vs "b" gives different signatures. -/
theorem signature_sorted_total_sensitive_witness :
    compute_problem_signature ⟨"", ["F2", "F1"], [("acceleration", ⟨.strV "nan", "m/s^2"⟩)]⟩
      = compute_problem_signature ⟨"", ["F1", "F2"], [("acceleration", ⟨.strV "nan", "m/s^2"⟩)]⟩
    ∧ compute_problem_signature ⟨"", ["F1"], [("a", ⟨.strV "nan", "m"⟩)]⟩
      ≠ compute_problem_signature ⟨"", ["F1"], [("b", ⟨.strV "nan", "m"⟩)]⟩
    ∧ compute_problem_signature ⟨"", ["F2", "F1"], [("acceleration", ⟨.strV "nan", "m/s^2"⟩)]⟩
      = "fids=[F1,F2]|unknown=acceleration" := by
  refine ⟨?_, ?_, ?_⟩
  · exact signature_sorted_total_sensitive.1 _ _ (List.Perm.swap "F1" "F2" []) rfl
  · exact signature_sorted_total_sensitive.2.1 _ _ "a" "b" (List.Perm.refl _) rfl rfl
      (by decide)
  · rw [signature_sorted_total_sensitive.2.2
      ⟨"", ["F2", "F1"], [("acceleration", ⟨.strV "nan", "m/s^2"⟩)]⟩ "acceleration" rfl]
    rfl

end PGen

namespace PGen

/-- C5: merging into a store whose records have pairwise distinct signatures
appends only records whose (nonempty) signature is not already present, so
distinctness is preserved; merging the same record set a second time leaves
the store unchanged (in particular its size). -/
theorem merge_unique_idempotent (store new : List SRecord)
    (hdist : store.Pairwise (fun a b => a.signature ≠ b.signature)) :
    (mergeRecords store (initialSignatures store) new).1.Pairwise
        (fun a b => a.signature ≠ b.signature)
    ∧ (∃ app : List SRecord,
        (mergeRecords store (initialSignatures store) new).1 = store ++ app
        ∧ ∀ r ∈ app, r ∈ new ∧ r.signature ∉ initialSignatures store)
    ∧ mergeRecords (mergeRecords store (initialSignatures store) new).1
        (initialSignatures (mergeRecords store (initialSignatures store) new).1) new
        = mergeRecords store (initialSignatures store) new
    ∧ (mergeRecords (mergeRecords store (initialSignatures store) new).1
        (initialSignatures (mergeRecords store (initialSignatures store) new).1) new).1.length
        = (mergeRecords store (initialSignatures store) new).1.length := by
  have hinv := mergeFold_inv new (store, initialSignatures store) hdist rfl
  have hnoop : mergeRecords (mergeRecords store (initialSignatures store) new).1
      (initialSignatures (mergeRecords store (initialSignatures store) new).1) new
      = mergeRecords store (initialSignatures store) new := by
    unfold mergeRecords
    have hsnd := hinv.2
    unfold mergeRecords at hsnd
    rw [← hsnd]
    have hcov := mergeFold_covers new (store, initialSignatures store)
    have := mergeFold_noop new
      ((new.foldl mergeStep (store, initialSignatures store)).1,
       (new.foldl mergeStep (store, initialSignatures store)).2)
      (fun r hr => hcov r hr)
    simpa using this
  refine ⟨hinv.1, ?_, hnoop, by rw [hnoop]⟩
  exact mergeFold_appends new (store, initialSignatures store)

/-- Witness for C5: a concrete store and a new list with an internal
duplicate signature merge to a distinct-signature store, and a repeated
merge is a no-op. -/
theorem merge_unique_idempotent_witness :
    (mergeRecords [⟨"s1", "a"⟩] (initialSignatures [⟨"s1", "a"⟩])
        [⟨"s2", "b"⟩, ⟨"s2", "c"⟩]).1.Pairwise (fun a b => a.signature ≠ b.signature)
    ∧ mergeRecords
        (mergeRecords [⟨"s1", "a"⟩] (initialSignatures [⟨"s1", "a"⟩])
          [⟨"s2", "b"⟩, ⟨"s2", "c"⟩]).1
        (initialSignatures
          (mergeRecords [⟨"s1", "a"⟩] (initialSignatures [⟨"s1", "a"⟩])
            [⟨"s2", "b"⟩, ⟨"s2", "c"⟩]).1)
        [⟨"s2", "b"⟩, ⟨"s2", "c"⟩]
      = mergeRecords [⟨"s1", "a"⟩] (initialSignatures [⟨"s1", "a"⟩])
          [⟨"s2", "b"⟩, ⟨"s2", "c"⟩] := by
  have h := merge_unique_idempotent [⟨"s1", "a"⟩] [⟨"s2", "b"⟩, ⟨"s2", "c"⟩] (by simp)
  exact ⟨h.1, h.2.2.1⟩

/-- C6: whenever any element of `formula_ids` is absent from the known set,
`validate_problem` returns valid = false with error "Invalid formula_id",
for every range table and history — the check short-circuits before the
unknown-count, range and duplicate checks. -/
theorem validate_invalid_formula_id_short_circuit (output : Candidate) (fset : List String)
    (ranges : List (String × Option (List ℚ))) (prev : List PrevProblem)
    (h : ∃ fid ∈ output.formula_ids, fid ∉ fset) :
    validate_problem output fset ranges prev = ⟨false, some "Invalid formula_id", Option.none⟩ := by
  obtain ⟨fid, hmem, hnot⟩ := h
  have hall : output.formula_ids.all (fun f => fset.contains f) = false := by
    rw [List.all_eq_false]
    exact ⟨fid, hmem, by simpa using hnot⟩
  unfold validate_problem
  rw [hall]
  rfl

/-- Witness for C6: a candidate naming the unknown formula id "F9" against
the known set {"F1"} is rejected with "Invalid formula_id" even though its
variable map would fail the unknown-count check too. -/
theorem validate_invalid_formula_id_short_circuit_witness :
    validate_problem ⟨"", ["F9"], []⟩ ["F1"] [] []
      = ⟨false, some "Invalid formula_id", Option.none⟩ :=
  validate_invalid_formula_id_short_circuit ⟨"", ["F9"], []⟩ ["F1"] [] []
    ⟨"F9", by simp, by decide⟩

/-- C7: for a non-unknown variable with a declared two-element range, and
assuming the earlier checks pass and no earlier variable erred, a value that
does not coerce to a float is rejected with a message naming the variable
and its value; a coerced value strictly outside the inclusive [min, max] is
rejected with a message naming the variable, the value, and the bounds; a
value within the bounds (including exactly min or max) produces no range
error and, with the remaining checks passing, the candidate validates. -/
theorem validate_range_bounds (wp : String) (fids : List String) (fset : List String)
    (ranges : List (String × Option (List ℚ))) (prev : List PrevProblem)
    (pre post : List (String × VarData)) (name : String) (vd : VarData)
    (mn mx : ℚ)
    (hfid : fids.all (fun fid => fset.contains fid) = true)
    (hcount : (nanVars (pre ++ (name, vd) :: post)).length = 1)
    (hpre : ∀ kv ∈ pre, varRangeError ranges kv = Option.none)
    (hnan : isNanSentinel vd.value = false)
    (hrange : (ranges.find? (fun e => e.1 == name)).map (fun e => e.2) = some (some [mn, mx])) :
    (pyFloat vd.value = Option.none →
      validate_problem ⟨wp, fids, pre ++ (name, vd) :: post⟩ fset ranges prev
        = ⟨false, some ("Variable '" ++ name ++ "' has an invalid numerical value: '"
            ++ pyStr vd.value ++ "'."), Option.none⟩)
    ∧ (∀ x, pyFloat vd.value = some x →
        (pLe (.fin mn) x && pLe x (.fin mx)) = false →
        validate_problem ⟨wp, fids, pre ++ (name, vd) :: post⟩ fset ranges prev
          = ⟨false, some (name ++ " with value " ++ varRangeError.pFloatStr x
              ++ " is out of expected range [" ++ toString mn ++ ", " ++ toString mx ++ "]."),
             Option.none⟩)
    ∧ (∀ q, pyFloat vd.value = some (.fin q) → mn ≤ q → q ≤ mx →
        (∀ kv ∈ post, varRangeError ranges kv = Option.none) →
        prev.any (fun p => p.signature
          == some (compute_problem_signature ⟨wp, fids, pre ++ (name, vd) :: post⟩)) = false →
        (validate_problem ⟨wp, fids, pre ++ (name, vd) :: post⟩ fset ranges prev).valid = true
        ∧ (validate_problem ⟨wp, fids, pre ++ (name, vd) :: post⟩ fset ranges prev).unknown_var
            = (nanVars (pre ++ (name, vd) :: post)).head?) := by
  have hpre' : List.findSome? (varRangeError ranges) pre = Option.none :=
    List.findSome?_eq_none_iff.mpr hpre
  refine ⟨?_, ?_, ?_⟩
  · intro hfloat
    unfold validate_problem
    rw [hfid]
    simp only [Bool.not_true, Bool.false_eq_true, if_false, hcount]
    rw [List.findSome?_append, hpre', Option.none_or, List.findSome?_cons,
      varRangeError_fires ranges name vd mn mx hnan hrange, hfloat]
    simp
  · intro x hfloat hle
    unfold validate_problem
    rw [hfid]
    simp only [Bool.not_true, Bool.false_eq_true, if_false, hcount]
    rw [List.findSome?_append, hpre', Option.none_or, List.findSome?_cons,
      varRangeError_fires ranges name vd mn mx hnan hrange, hfloat]
    simp [hle]
  · intro q hfloat hmn hmx hpost hnodup
    have hmid : varRangeError ranges (name, vd) = Option.none := by
      rw [varRangeError_fires ranges name vd mn mx hnan hrange, hfloat]
      simp [pLe, hmn, hmx]
    have hall : List.findSome? (varRangeError ranges) (pre ++ (name, vd) :: post)
        = Option.none := by
      rw [List.findSome?_append, hpre', Option.none_or, List.findSome?_cons, hmid]
      exact List.findSome?_eq_none_iff.mpr hpost
    unfold validate_problem
    rw [hfid]
    simp only [Bool.not_true, Bool.false_eq_true, if_false, hcount]
    rw [hall]
    simp only [hnodup]
    simp [nanVars]

/-- Witness for C7: with range mass ∈ [0, 10], the value "abc" is rejected
naming the variable and value, 11 is rejected naming the bounds, and the
boundary value 10 is accepted. -/
theorem validate_range_bounds_witness :
    validate_problem
        ⟨"", ["F1"], [("x", ⟨.strV "nan", "m"⟩), ("mass", ⟨.strV "abc", "kg"⟩)]⟩
        ["F1"] [("mass", some [0, 10])] []
      = ⟨false, some "Variable 'mass' has an invalid numerical value: 'abc'.", Option.none⟩
    ∧ validate_problem
        ⟨"", ["F1"], [("x", ⟨.strV "nan", "m"⟩), ("mass", ⟨.num 11, "kg"⟩)]⟩
        ["F1"] [("mass", some [0, 10])] []
      = ⟨false, some "mass with value 11 is out of expected range [0, 10].", Option.none⟩
    ∧ (validate_problem
        ⟨"", ["F1"], [("x", ⟨.strV "nan", "m"⟩), ("mass", ⟨.num 10, "kg"⟩)]⟩
        ["F1"] [("mass", some [0, 10])] []).valid = true := by
  refine ⟨?_, ?_, ?_⟩
  · exact (validate_range_bounds "" ["F1"] ["F1"] [("mass", some [0, 10])] []
      [("x", ⟨.strV "nan", "m"⟩)] [] "mass" ⟨.strV "abc", "kg"⟩ 0 10
      (by rfl) (by rfl)
      (by intro kv hkv; rw [List.mem_singleton] at hkv; subst hkv; rfl)
      (by rfl) (by rfl)).1 (by rfl)
  · exact (validate_range_bounds "" ["F1"] ["F1"] [("mass", some [0, 10])] []
      [("x", ⟨.strV "nan", "m"⟩)] [] "mass" ⟨.num 11, "kg"⟩ 0 10
      (by rfl) (by rfl)
      (by intro kv hkv; rw [List.mem_singleton] at hkv; subst hkv; rfl)
      (by rfl) (by rfl)).2.1 (.fin 11) (by rfl) (by rfl)
  · exact ((validate_range_bounds "" ["F1"] ["F1"] [("mass", some [0, 10])] []
      [("x", ⟨.strV "nan", "m"⟩)] [] "mass" ⟨.num 10, "kg"⟩ 0 10
      (by rfl) (by rfl)
      (by intro kv hkv; rw [List.mem_singleton] at hkv; subst hkv; rfl)
      (by rfl) (by rfl)).2.2 10 (by rfl) (by norm_num) (by norm_num)
      (by simp) (by rfl)).1

end PGen

namespace PGen

/-- C8 (counterexample): the claim states that an unreadable or non-array
store file is an error requiring operator intervention and that previously
persisted records are not dropped by a subsequent merge-write.  On the code
the loader warns and proceeds with an empty record list, so the next
`atomic_write_json` replaces the file: a record the file previously held is
gone from the rewritten store. -/
theorem store_unreadable_drops_records :
    loadExistingRecords ⟨[⟨"fids=[F1]|unknown=mass", "p1"⟩], false⟩ = []
    ∧ storeAfterMergeWrite ⟨[⟨"fids=[F1]|unknown=mass", "p1"⟩], false⟩
        [⟨"fids=[F2]|unknown=time", "p2"⟩] = [⟨"fids=[F2]|unknown=time", "p2"⟩]
    ∧ (⟨"fids=[F1]|unknown=mass", "p1"⟩ : SRecord) ∉
        storeAfterMergeWrite ⟨[⟨"fids=[F1]|unknown=mass", "p1"⟩], false⟩
          [⟨"fids=[F2]|unknown=time", "p2"⟩] := by
  refine ⟨rfl, rfl, ?_⟩
  intro h
  simp [storeAfterMergeWrite, mergeRecords, mergeStep, loadExistingRecords,
    initialSignatures] at h

/-- C8 (amended): when the durable store file exists but does not parse as a
JSON array, or cannot be read, the pipeline does NOT stop for operator
intervention: it logs a warning, proceeds with an empty in-memory record
list, and the subsequent merge-write rewrites the file from that empty
list, dropping previously persisted records that are not regenerated. -/
theorem store_unreadable_starts_empty (f : StoreFile) (new : List SRecord)
    (hunread : f.readable = false) :
    loadExistingRecords f = []
    ∧ storeAfterMergeWrite f new = (mergeRecords [] [] new).1 := by
  have hload : loadExistingRecords f = [] := by
    unfold loadExistingRecords
    rw [hunread]
    rfl
  exact ⟨hload, by unfold storeAfterMergeWrite; rw [hload]; rfl⟩

/-- Witness for C8: a concrete unreadable store is loaded as empty and the
merge-write result is the merge over the empty store. -/
theorem store_unreadable_starts_empty_witness :
    loadExistingRecords ⟨[⟨"fids=[F1]|unknown=mass", "p1"⟩], false⟩ = []
    ∧ storeAfterMergeWrite ⟨[⟨"fids=[F1]|unknown=mass", "p1"⟩], false⟩
        [⟨"fids=[F2]|unknown=time", "p2"⟩]
      = (mergeRecords [] [] [⟨"fids=[F2]|unknown=time", "p2"⟩]).1 :=
  store_unreadable_starts_empty ⟨[⟨"fids=[F1]|unknown=mass", "p1"⟩], false⟩
    [⟨"fids=[F2]|unknown=time", "p2"⟩] rfl

/-- C9: for every model behaviour, the per-row loop executes at most
`max_iterations` (12) iterations of at most two cycles each, and the number
of success records collected for the row never exceeds
`target_problems + 1` (11); because the target-count condition is only
checked between iterations, 11 is actually reachable. -/
theorem row_loop_iteration_and_success_bounds :
    (∀ envs fset ranges prev0,
      (runRow envs fset ranges prev0).1 ≤ max_iterations
      ∧ (runRow envs fset ranges prev0).2.per_row_successful.length ≤ target_problems + 1)
    ∧ (∃ envs : ℕ → ℕ → CycleEnv,
        (runRow envs [] [] []).2.per_row_successful.length = target_problems + 1) := by
  constructor
  · intro envs fset ranges prev0
    constructor
    · have := runRowLoop_iter_bound envs fset ranges max_iterations 0 ⟨prev0, []⟩
      simpa [runRow] using this
    · exact runRowLoop_success_bound envs fset ranges max_iterations 0 ⟨prev0, []⟩ (by simp)
  · exact ⟨envs11, by rfl⟩

/-- C10: a boolean return value from `solve` counts as numeric
(`bool` is a subclass of `int` in Python), is never negative, and is
accepted: the executor returns valid = true with the boolean as result. -/
theorem execute_accepts_bool_result (b : Bool) (vars : List (String × VarData)) :
    execute_and_validate_in_repl (.returns (.boolV b)) vars
      = ⟨true, Option.none, some (.boolV b)⟩ := by
  unfold execute_and_validate_in_repl
  cases hnv : nanVars vars with
  | nil => cases b <;> simp [pyIsNumber, pyNonFinite, hnv]
  | cons u rest => cases b <;> simp [pyIsNumber, pyNonFinite, pyNeg, hnv]

end PGen
